import Mathlib

/-!
Verification development for the tuic server connection dispatcher
(`src/server/src/connection/dispatch/mod.rs`).

The dispatcher is async Rust over tokio/quinn.  We embed it shallowly:

* `Command` mirrors `tuic_protocol::Command` (the decoded header variants).
* A handler's externally visible behaviour is a list of `Action`s: connection
  closes (with their reason bytes), the atomic store to `is_authenticated`,
  spawning the packet-forward task, calls into the association map, TCP
  connection attempts, `Response` writes, the bidirectional relay, the 100 ms
  `interval.tick()` waits, and `eprintln!` logging.
* The shared `AtomicBool` and `Instant::elapsed` are the environment: the
  value returned by `is_authenticated.load(Ordering::Acquire)` at the i-th
  iteration of the polling loop is `auth i : Bool`, and the milliseconds
  returned by `create_time.elapsed()` at that iteration is `elapsedMs i`.
* The polling `loop` is given fuel; `none` means the fuel ran out before the
  loop broke (the real loop would still be polling).
-/

namespace Tuic

/-- `tuic_protocol::Address`: either a literal socket address or a
domain name + port. -/
inductive Address
  | socketAddr (ip : Nat) (port : Nat)
  | domainAddr (host : String) (port : Nat)
deriving DecidableEq

/-- `tuic_protocol::Command`, as decoded by `Command::read_from`.  The
`digest` is the 32-byte token digest, `assocId` the `u32` association id,
`len` the `u16` length field. -/
inductive Command
  | authenticate (digest : List Nat)
  | connect (addr : Address)
  | bind (addr : Address)
  | packet (assocId : Nat) (len : Nat) (addr : Address)
  | dissociate (assocId : Nat)
deriving DecidableEq

/-- Externally visible effects of the dispatcher. -/
inductive Action
  | closeConn (reason : String)
  | storeAuthFlag (b : Bool)
  | spawnPacketForward (assocId : Nat) (len : Nat) (addr : Address)
  | dissociateAssoc (assocId : Nat)
  | tcpConnectAttempt (sa : Nat)
  | writeResponse (success : Bool)
  | relayBidirectional (sa : Nat)
  | tick
  | logError
deriving DecidableEq

/-- Data-plane servicing actions: spawning the packet-forward task
(`tokio::spawn(handle_packet ...)`), `assoc_map.dissociate`, and the TCP
relay performed by `handle_connect` (connect attempts, the `Response`
write, the bidirectional copy). -/
def Action.isDataPlane : Action → Bool
  | .spawnPacketForward _ _ _ => true
  | .dissociateAssoc _ => true
  | .tcpConnectAttempt _ => true
  | .writeResponse _ => true
  | .relayBidirectional _ => true
  | _ => false

/-- The dispatch arm of `handle_uni_stream` inside the
`if is_authenticated.load(...)` branch (mod.rs lines 51-84): Authenticate,
Connect and Bind close the connection with "Bad command"; Packet spawns the
forwarding task; Dissociate calls `assoc_map.dissociate` synchronously. -/
def dispatchUniAuthed : Command → List Action
  | .authenticate _ => [.closeConn "Bad command"]
  | .connect _ => [.closeConn "Bad command"]
  | .bind _ => [.closeConn "Bad command"]
  | .packet assocId len addr => [.spawnPacketForward assocId len addr]
  | .dissociate assocId => [.dissociateAssoc assocId]

/-- The authentication polling loop of `handle_uni_stream` (mod.rs lines
49-93), starting at iteration `i`: a true read of the flag dispatches and
breaks; otherwise `create_time.elapsed() > Duration::from_secs(3)` closes
the connection with "Authentication timeout" and breaks; otherwise
`interval.tick().await` and loop. -/
def uniGateLoop (cmd : Command) (auth : Nat → Bool) (elapsedMs : Nat → Nat) :
    Nat → Nat → Option (List Action)
  | 0, _ => none
  | fuel + 1, i =>
    if auth i then
      some (dispatchUniAuthed cmd)
    else if 3000 < elapsedMs i then
      some [.closeConn "Authentication timeout"]
    else
      (uniGateLoop cmd auth elapsedMs fuel (i + 1)).map (fun acts => .tick :: acts)

/-- `handle_uni_stream` (mod.rs lines 20-96).  `decoded` is the result of
`Command::read_from` (`none` = decode error).  An Authenticate command is
handled immediately: a digest equal to `expected_token_digest` stores true
into the flag; otherwise the connection is closed with "Authentication
failed".  Every other command goes through the polling gate. -/
def handle_uni_stream (fuel : Nat) (decoded : Option Command)
    (expected : List Nat) (auth : Nat → Bool) (elapsedMs : Nat → Nat) :
    Option (List Action) :=
  match decoded with
  | none => some [.closeConn "Bad command"]
  | some (.authenticate digest) =>
    if digest = expected then
      some [.storeAuthFlag true]
    else
      some [.closeConn "Authentication failed"]
  | some cmd => uniGateLoop cmd auth elapsedMs fuel 0

/-- The networking environment seen by `handle_connect`:
`resolve` is `addr.to_socket_addrs()` (`none` = resolution error, otherwise
the candidate list), and `connOk sa` tells whether
`TcpStream::connect(sa).await` returns `Ok`.  Socket addresses are
abstracted as naturals. -/
structure NetEnv where
  resolve : Address → Option (List Nat)
  connOk : Nat → Bool

/-- The `for addr in addrs` loop of `connect_remote` (mod.rs lines 125-129):
try each candidate in order, returning on the first `Ok`.  First component:
the candidates on which `TcpStream::connect` was attempted, in order;
second: the successful one, if any (`none` = the `bail!`). -/
def connectRemoteLoop (connOk : Nat → Bool) : List Nat → List Nat × Option Nat
  | [] => ([], none)
  | sa :: rest =>
    if connOk sa then
      ([sa], some sa)
    else
      let (tried, res) := connectRemoteLoop connOk rest
      (sa :: tried, res)

/-- `connect_remote` (mod.rs lines 122-132): resolve, then try candidates in
order.  A resolution error attempts nothing and yields `none` (the `?` on
`to_socket_addrs`). -/
def connect_remote (env : NetEnv) (addr : Address) : List Nat × Option Nat :=
  match env.resolve addr with
  | none => ([], none)
  | some addrs => connectRemoteLoop env.connOk addrs

/-- `handle_connect` (mod.rs lines 117-152): on `connect_remote` failure,
write `Response::new(false)` and return `Err`; on success write
`Response::new(true)` and run the bidirectional relay
(`tokio::try_join!` of the two `io::copy`s).  Second component: whether the
returned `Result` was `Ok`. -/
def handle_connect (env : NetEnv) (addr : Address) : List Action × Bool :=
  match connect_remote env addr with
  | (tried, none) =>
    (tried.map Action.tcpConnectAttempt ++ [.writeResponse false], false)
  | (tried, some sa) =>
    (tried.map Action.tcpConnectAttempt ++ [.writeResponse true, .relayBidirectional sa], true)

/-- Outcome of `handle_bi_stream`: either the handler ran to completion with
the given actions, or it hit the `todo!()` for Bind and the task panicked
after the given actions. -/
inductive BiOutcome
  | done (acts : List Action)
  | panicked (acts : List Action)
deriving DecidableEq

/-- Prepend one `interval.tick()` to a `BiOutcome`. -/
def BiOutcome.prependTick : BiOutcome → BiOutcome
  | .done acts => .done (.tick :: acts)
  | .panicked acts => .panicked (.tick :: acts)

/-- The dispatch inside `handle_bi_stream`'s authenticated branch (mod.rs
lines 154-163): Authenticate, Packet and Dissociate close the connection
with "Bad command"; Connect runs `handle_connect`, logging the error via
`eprintln!` when it returns `Err`; Bind hits `todo!()` and panics the
task. -/
def dispatchBiAuthed (env : NetEnv) : Command → BiOutcome
  | .authenticate _ => .done [.closeConn "Bad command"]
  | .connect addr =>
    let (acts, ok) := handle_connect env addr
    .done (acts ++ if ok then [] else [.logError])
  | .bind _ => .panicked []
  | .packet _ _ _ => .done [.closeConn "Bad command"]
  | .dissociate _ => .done [.closeConn "Bad command"]

/-- The authentication polling loop of `handle_bi_stream` (mod.rs lines
116-172), same gate as `uniGateLoop` but dispatching per lines 154-163.
Note the Authenticate command is *not* short-circuited here: it too goes
through the gate and is then rejected as "Bad command". -/
def biGateLoop (env : NetEnv) (cmd : Command) (auth : Nat → Bool)
    (elapsedMs : Nat → Nat) : Nat → Nat → Option BiOutcome
  | 0, _ => none
  | fuel + 1, i =>
    if auth i then
      some (dispatchBiAuthed env cmd)
    else if 3000 < elapsedMs i then
      some (.done [.closeConn "Authentication timeout"])
    else
      (biGateLoop env cmd auth elapsedMs fuel (i + 1)).map BiOutcome.prependTick

/-- `handle_bi_stream` (mod.rs lines 98-173): decode (`none` = decode error
⇒ close "Bad command"), then the polling gate with the bidirectional
dispatch. -/
def handle_bi_stream (fuel : Nat) (decoded : Option Command) (env : NetEnv)
    (auth : Nat → Bool) (elapsedMs : Nat → Nat) : Option BiOutcome :=
  match decoded with
  | none => some (.done [.closeConn "Bad command"])
  | some cmd => biGateLoop env cmd auth elapsedMs fuel 0

/-- One write performed on the freshly opened unidirectional stream by
`handle_received_udp_packet`: either an encoded command header or raw
bytes. -/
inductive WriteEvent
  | writeCommand (cmd : Command)
  | writeBytes (bytes : List Nat)
deriving DecidableEq

/-- `Command::new_packet(assoc_id, len, addr)` from the protocol crate:
builds a Packet command with the given fields (`len` is a `u16`). -/
def Command.new_packet (assocId : Nat) (len : Nat) (addr : Address) : Command :=
  .packet assocId len addr

/-- `handle_received_udp_packet` (mod.rs lines 175-192): open one new
unidirectional stream, write `Command::new_packet(assoc_id,
packet.len() as u16, addr)` followed by the raw packet bytes.  The
`as u16` cast truncates the `usize` length modulo 2^16. -/
def handle_received_udp_packet (assocId : Nat) (packet : List Nat)
    (addr : Address) : List WriteEvent :=
  [ .writeCommand (Command.new_packet assocId (packet.length % 65536) addr),
    .writeBytes packet ]

/-- Abstract outcome of one `io::copy` direction of the relay: it returns
at (abstract, strictly positive) time `time`, with `ok = true` when it
returned `Ok` (the reader reached end-of-stream) and `ok = false` when it
returned `Err`. -/
structure CopyOutcome where
  time : Nat
  ok : Bool
deriving DecidableEq

/-- At abstract time `t`, has `tokio::try_join!(a, b)` finished?  Per the
tokio documentation, `try_join!` "returns when all branches complete with
Ok, or on the first Err": so it is done once some direction has returned
`Err`, or once both have returned `Ok`. -/
def tryJoinDone (a b : CopyOutcome) (t : Nat) : Bool :=
  (!a.ok && a.time ≤ t) || (!b.ok && b.time ≤ t) || (a.time ≤ t && b.time ≤ t)

/-- Bounded search for the first time at which `tryJoinDone` holds. -/
def tryJoinFinishFrom (a b : CopyOutcome) : Nat → Nat → Nat
  | 0, t => t
  | fuel + 1, t => if tryJoinDone a b t then t else tryJoinFinishFrom a b fuel (t + 1)

/-- The time at which the relay phase of `handle_connect` terminates:
the first time at which `tokio::try_join!(target_to_tunnel,
tunnel_to_target)` (mod.rs line 149) has finished.  Both copy directions
run concurrently from time 0. -/
def relayFinishTime (a b : CopyOutcome) : Nat :=
  tryJoinFinishFrom a b (max a.time b.time + 1) 0

/-- Follows the spec's words, NOT the source: "the relay terminates as soon
as either direction reaches end-of-stream or errors ... first completion or
error wins; the other copy is not awaited to its natural completion". -/
def relayFinishTimeSpec (a b : CopyOutcome) : Nat :=
  min a.time b.time

/-- Actions of a `BiOutcome`, whether the handler finished or panicked. -/
def BiOutcome.acts : BiOutcome → List Action
  | .done l => l
  | .panicked l => l

/-- Prepend `n` ticks to a `BiOutcome`. -/
def BiOutcome.prependTicks : Nat → BiOutcome → BiOutcome
  | 0, o => o
  | n + 1, o => (BiOutcome.prependTicks n o).prependTick

theorem BiOutcome.acts_prependTick (o : BiOutcome) :
    o.prependTick.acts = Action.tick :: o.acts := by
  cases o <;> rfl

theorem BiOutcome.acts_prependTicks (n : Nat) (o : BiOutcome) :
    (BiOutcome.prependTicks n o).acts = List.replicate n Action.tick ++ o.acts := by
  induction n with
  | zero => rfl
  | succ n ih =>
    simp [BiOutcome.prependTicks, BiOutcome.acts_prependTick, ih, List.replicate_succ]

theorem BiOutcome.prependTicks_done (n : Nat) (l : List Action) :
    BiOutcome.prependTicks n (.done l) = .done (List.replicate n Action.tick ++ l) := by
  induction n with
  | zero => rfl
  | succ n ih => simp [BiOutcome.prependTicks, ih, BiOutcome.prependTick, List.replicate_succ]

/-- **C2.** On a receive-only stream carrying `Authenticate{digest}`: a
digest equal to the expected token digest makes the handler store `true`
into the shared flag and nothing else (in particular it does not close the
Connection); a differing digest makes it close the Connection with
"Authentication failed" and nothing else (in particular the flag is not
stored to). -/
theorem uni_authenticate_digest_check (fuel : Nat) (digest expected : List Nat)
    (auth : Nat → Bool) (elapsedMs : Nat → Nat) :
    (digest = expected →
      handle_uni_stream fuel (some (.authenticate digest)) expected auth elapsedMs =
        some [Action.storeAuthFlag true]) ∧
    (digest ≠ expected →
      handle_uni_stream fuel (some (.authenticate digest)) expected auth elapsedMs =
        some [Action.closeConn "Authentication failed"]) ∧
    (∀ r, Action.closeConn r ∉ [Action.storeAuthFlag true]) ∧
    (∀ b, Action.storeAuthFlag b ∉ [Action.closeConn "Authentication failed"]) := by
  refine ⟨fun h => ?_, fun h => ?_, by simp, by simp⟩
  · simp [handle_uni_stream, h]
  · simp [handle_uni_stream, h]

theorem uni_authenticate_digest_check_witness :
    handle_uni_stream 1 (some (.authenticate [7])) [7] (fun _ => false) (fun _ => 0) =
      some [Action.storeAuthFlag true] :=
  (uni_authenticate_digest_check 1 [7] [7] (fun _ => false) (fun _ => 0)).1 rfl

/-- **C10.** The Authenticate command on a receive-only stream is handled
immediately, without consulting the gate: the result does not depend on
the flag-read trace, the elapsed time, or the fuel; a matching digest
stores the flag even when more than 3 seconds have elapsed; and the
Authenticate path never closes the Connection with "Authentication
timeout". -/
theorem authenticate_ignores_gate (fuel fuel' : Nat) (digest expected : List Nat)
    (auth auth' : Nat → Bool) (elapsedMs elapsedMs' : Nat → Nat) :
    handle_uni_stream fuel (some (.authenticate digest)) expected auth elapsedMs =
      handle_uni_stream fuel' (some (.authenticate digest)) expected auth' elapsedMs' ∧
    (3000 < elapsedMs 0 → digest = expected →
      handle_uni_stream fuel (some (.authenticate digest)) expected auth elapsedMs =
        some [Action.storeAuthFlag true]) ∧
    (∀ out, handle_uni_stream fuel (some (.authenticate digest)) expected auth elapsedMs =
        some out → Action.closeConn "Authentication timeout" ∉ out) := by
  refine ⟨by simp [handle_uni_stream], fun _ h => by simp [handle_uni_stream, h], fun out hout => ?_⟩
  by_cases h : digest = expected <;>
    simp [handle_uni_stream, h] at hout <;> simp [← hout]

theorem authenticate_ignores_gate_witness :
    handle_uni_stream 1 (some (.authenticate [7])) [7] (fun _ => false) (fun _ => 5000) =
      some [Action.storeAuthFlag true] :=
  (authenticate_ignores_gate 1 1 [7] [7] (fun _ => false) (fun _ => false)
    (fun _ => 5000) (fun _ => 5000)).2.1 (by norm_num) rfl

/-- **C8.** Once the gate has passed, a command on the wrong stream kind
closes the Connection with "Bad command" and performs no data-plane
action: Authenticate, Connect and Bind reaching the post-gate dispatch of
the receive-only handler, and Authenticate, Packet and Dissociate reaching
the post-gate dispatch of the duplex handler.  The single emitted action,
`closeConn "Bad command"`, is not a data-plane action. -/
theorem post_auth_wrong_stream_kind (digest : List Nat) (a : Address)
    (assocId len : Nat) (env : NetEnv) :
    dispatchUniAuthed (.authenticate digest) = [Action.closeConn "Bad command"] ∧
    dispatchUniAuthed (.connect a) = [Action.closeConn "Bad command"] ∧
    dispatchUniAuthed (.bind a) = [Action.closeConn "Bad command"] ∧
    dispatchBiAuthed env (.authenticate digest) = .done [Action.closeConn "Bad command"] ∧
    dispatchBiAuthed env (.packet assocId len a) = .done [Action.closeConn "Bad command"] ∧
    dispatchBiAuthed env (.dissociate assocId) = .done [Action.closeConn "Bad command"] ∧
    (Action.closeConn "Bad command").isDataPlane = false := by
  exact ⟨rfl, rfl, rfl, rfl, rfl, rfl, rfl⟩

/-- **C9.** A duplex stream carrying `Bind` whose gate passes hits the
`todo!()`: the task panics having performed no action at all — no
`Response` is written and the Connection is not closed. -/
theorem bi_bind_panics (fuel : Nat) (a : Address) (env : NetEnv)
    (auth : Nat → Bool) (elapsedMs : Nat → Nat) (hauth : auth 0 = true) :
    handle_bi_stream (fuel + 1) (some (.bind a)) env auth elapsedMs =
      some (.panicked []) := by
  simp [handle_bi_stream, biGateLoop, hauth, dispatchBiAuthed]

theorem bi_bind_panics_witness :
    handle_bi_stream 1 (some (.bind (Address.socketAddr 0 80)))
      ⟨fun _ => none, fun _ => false⟩ (fun _ => true) (fun _ => 0) =
      some (.panicked []) :=
  bi_bind_panics 0 (Address.socketAddr 0 80) ⟨fun _ => none, fun _ => false⟩
    (fun _ => true) (fun _ => 0) rfl

/-- **C6, counterexample.** The claim says the Packet command written by the
reverse packet pusher carries a length field equal to `len(P)` for *every*
payload, including unrepresentable lengths.  For a payload of 65536 bytes
the `as u16` cast truncates the length field to 0, so the written command
differs from one carrying length `len(P)`. -/
theorem udp_push_len_counterexample :
    handle_received_udp_packet 7 (List.replicate 65536 0) (Address.socketAddr 0 0) ≠
      [ WriteEvent.writeCommand
          (.packet 7 (List.replicate 65536 (0 : Nat)).length (Address.socketAddr 0 0)),
        WriteEvent.writeBytes (List.replicate 65536 0) ] := by
  intro h
  have h2 := congrArg (fun l => match l with
    | WriteEvent.writeCommand (Command.packet _ len _) :: _ => len
    | _ => 0) h
  simp only [handle_received_udp_packet, Command.new_packet, List.length_replicate] at h2
  exact absurd h2 (by norm_num)

/-- **C6, amended.** The reverse packet pusher opens one new stream and
writes exactly a Packet command with association id `Y` and length field
`len(P) mod 2^16`, followed by the raw bytes of `P`, byte-exact; whenever
`len(P)` fits in a `u16` the length field is exactly `len(P)`. -/
theorem udp_push_writes (assocId : Nat) (packet : List Nat) (addr : Address) :
    handle_received_udp_packet assocId packet addr =
      [ WriteEvent.writeCommand (.packet assocId (packet.length % 65536) addr),
        WriteEvent.writeBytes packet ] ∧
    (packet.length < 65536 → packet.length % 65536 = packet.length) := by
  exact ⟨rfl, fun h => Nat.mod_eq_of_lt h⟩

theorem udp_push_writes_witness :
    ([1, 2, 3] : List Nat).length % 65536 = ([1, 2, 3] : List Nat).length :=
  (udp_push_writes 7 [1, 2, 3] (Address.socketAddr 0 0)).2 (by norm_num)

theorem tryJoinFinishFrom_eq_least (a b : CopyOutcome) :
    ∀ (fuel t T : Nat), t ≤ T → T ≤ t + fuel → tryJoinDone a b T = true →
      (∀ s, t ≤ s → s < T → tryJoinDone a b s = false) →
      tryJoinFinishFrom a b fuel t = T := by
  intro fuel
  induction fuel with
  | zero =>
    intro t T h1 h2 _ _
    have : T = t := le_antisymm (by omega) h1
    simp [tryJoinFinishFrom, this]
  | succ fuel ih =>
    intro t T h1 h2 hT hmin
    by_cases h : tryJoinDone a b t = true
    · have : T = t := by
        rcases Nat.lt_or_ge t T with hlt | hge
        · exact absurd h (by simp [hmin t le_rfl hlt])
        · exact le_antisymm hge h1
      simp [tryJoinFinishFrom, h, this]
    · have hne : t ≠ T := fun he => h (he ▸ hT)
      have ht : t < T := lt_of_le_of_ne h1 hne
      simp only [tryJoinFinishFrom, h, if_false]
      exact ih (t + 1) T ht (by omega) hT (fun s hs1 hs2 => hmin s (by omega) hs2)

/-- **C5, amended.** The relay's two copy directions run concurrently, but
`tokio::try_join!` short-circuits only on `Err`: the relay terminates at
the first direction to *error* (the other is then abandoned), while a
direction that reaches end-of-stream (`Ok`) does not terminate the relay —
when neither direction errors, the relay ends only once *both* directions
have completed. -/
theorem relay_finish_time_eq (a b : CopyOutcome) :
    (a.ok = false → b.ok = false → relayFinishTime a b = min a.time b.time) ∧
    (a.ok = false → b.ok = true → relayFinishTime a b = a.time) ∧
    (a.ok = true → b.ok = false → relayFinishTime a b = b.time) ∧
    (a.ok = true → b.ok = true → relayFinishTime a b = max a.time b.time) := by
  refine ⟨fun ha hb => ?_, fun ha hb => ?_, fun ha hb => ?_, fun ha hb => ?_⟩ <;>
    unfold relayFinishTime
  · -- both error: first Err wins
    exact tryJoinFinishFrom_eq_least a b _ 0 (min a.time b.time) (Nat.zero_le _)
      (by omega) (by simp [tryJoinDone, ha, hb] <;> omega)
      (fun s _ hs => by simp [tryJoinDone, ha, hb] <;> omega)
  · -- a errors, b completes Ok: the relay ends exactly when a errors
    exact tryJoinFinishFrom_eq_least a b _ 0 a.time (Nat.zero_le _)
      (by omega) (by simp [tryJoinDone, ha, hb] <;> omega)
      (fun s _ hs => by simp [tryJoinDone, ha, hb] <;> omega)
  · -- b errors, a completes Ok
    exact tryJoinFinishFrom_eq_least a b _ 0 b.time (Nat.zero_le _)
      (by omega) (by simp [tryJoinDone, ha, hb] <;> omega)
      (fun s _ hs => by simp [tryJoinDone, ha, hb] <;> omega)
  · -- both complete Ok: the relay waits for the later direction
    exact tryJoinFinishFrom_eq_least a b _ 0 (max a.time b.time) (Nat.zero_le _)
      (by omega) (by simp [tryJoinDone, ha, hb] <;> omega)
      (fun s _ hs => by simp [tryJoinDone, ha, hb] <;> omega)

theorem relay_finish_time_eq_witness :
    relayFinishTime ⟨1, true⟩ ⟨5, true⟩ = max 1 5 :=
  (relay_finish_time_eq ⟨1, true⟩ ⟨5, true⟩).2.2.2 rfl rfl

/-- **C5, counterexample.** With the target-to-tunnel copy reaching
end-of-stream at time 1 and the tunnel-to-target copy at time 5 (no
errors), the claim says the relay terminates at time 1, abandoning the
second copy; the code's `tokio::try_join!` keeps awaiting the second copy
and terminates at time 5. -/
theorem relay_first_eof_counterexample :
    relayFinishTime ⟨1, true⟩ ⟨5, true⟩ = 5 ∧
    relayFinishTimeSpec ⟨1, true⟩ ⟨5, true⟩ = 1 ∧
    relayFinishTime ⟨1, true⟩ ⟨5, true⟩ ≠ relayFinishTimeSpec ⟨1, true⟩ ⟨5, true⟩ := by
  refine ⟨by decide, by decide, by decide⟩

theorem handle_uni_stream_nonauth (fuel : Nat) (cmd : Command) (expected : List Nat)
    (auth : Nat → Bool) (elapsedMs : Nat → Nat)
    (hcmd : ∀ d, cmd ≠ Command.authenticate d) :
    handle_uni_stream fuel (some cmd) expected auth elapsedMs =
      uniGateLoop cmd auth elapsedMs fuel 0 := by
  cases cmd <;> first | exact absurd rfl (hcmd _) | rfl

theorem handle_bi_stream_some (fuel : Nat) (cmd : Command) (env : NetEnv)
    (auth : Nat → Bool) (elapsedMs : Nat → Nat) :
    handle_bi_stream fuel (some cmd) env auth elapsedMs =
      biGateLoop env cmd auth elapsedMs fuel 0 := rfl

theorem uniGateLoop_mem_auth (cmd : Command) (auth : Nat → Bool) (elapsedMs : Nat → Nat) :
    ∀ (fuel i : Nat) (out : List Action) (act : Action),
      uniGateLoop cmd auth elapsedMs fuel i = some out → act ∈ out →
      act.isDataPlane = true →
      ∃ k, auth (i + k) = true ∧ out = List.replicate k Action.tick ++ dispatchUniAuthed cmd := by
  intro fuel
  induction fuel with
  | zero => intro i out act h; simp [uniGateLoop] at h
  | succ fuel ih =>
    intro i out act h hmem hdp
    by_cases h1 : auth i
    · refine ⟨0, by simpa using h1, ?_⟩
      simp [uniGateLoop, h1] at h
      simp [← h]
    · by_cases h2 : 3000 < elapsedMs i
      · simp [uniGateLoop, h1, h2] at h
        rw [← h] at hmem
        simp at hmem
        rw [hmem] at hdp
        simp [Action.isDataPlane] at hdp
      · simp only [uniGateLoop, h1, if_false, h2, Bool.false_eq_true] at h
        rcases Option.map_eq_some'.mp h with ⟨rest, hrest, hout⟩
        subst hout
        rcases List.mem_cons.mp hmem with hact | hact
        · rw [hact] at hdp; simp [Action.isDataPlane] at hdp
        · rcases ih (i + 1) rest act hrest hact hdp with ⟨k, hk, hr⟩
          refine ⟨k + 1, by rw [show i + (k + 1) = i + 1 + k by omega]; exact hk, ?_⟩
          rw [hr, List.replicate_succ]
          rfl

theorem biGateLoop_mem_auth (env : NetEnv) (cmd : Command) (auth : Nat → Bool)
    (elapsedMs : Nat → Nat) :
    ∀ (fuel i : Nat) (o : BiOutcome) (act : Action),
      biGateLoop env cmd auth elapsedMs fuel i = some o → act ∈ o.acts →
      act.isDataPlane = true →
      ∃ k, auth (i + k) = true ∧ o = BiOutcome.prependTicks k (dispatchBiAuthed env cmd) := by
  intro fuel
  induction fuel with
  | zero => intro i o act h; simp [biGateLoop] at h
  | succ fuel ih =>
    intro i o act h hmem hdp
    by_cases h1 : auth i
    · refine ⟨0, by simpa using h1, ?_⟩
      simp [biGateLoop, h1] at h
      rw [← h]
      rfl
    · by_cases h2 : 3000 < elapsedMs i
      · simp [biGateLoop, h1, h2] at h
        rw [← h] at hmem
        simp [BiOutcome.acts] at hmem
        rw [hmem] at hdp
        simp [Action.isDataPlane] at hdp
      · simp only [biGateLoop, h1, if_false, h2, Bool.false_eq_true] at h
        rcases Option.map_eq_some'.mp h with ⟨o', ho', hout⟩
        subst hout
        rw [BiOutcome.acts_prependTick] at hmem
        rcases List.mem_cons.mp hmem with hact | hact
        · rw [hact] at hdp; simp [Action.isDataPlane] at hdp
        · rcases ih (i + 1) o' act ho' hact hdp with ⟨k, hk, hr⟩
          refine ⟨k + 1, by rw [show i + (k + 1) = i + 1 + k by omega]; exact hk, ?_⟩
          rw [hr]
          rfl

/-- **C1.** No data-plane command is serviced before the handler observes a
true read of the Connection's shared authentication flag: whenever a
data-plane action (spawning the packet-forward task, dissociating, or any
step of the TCP relay) appears in a handler's output, the flag-read trace
contains a true read at some poll `n`, and the entire output is the ticks
of the failed polls followed by the dispatch of the branch guarded by that
true read. -/
theorem data_plane_requires_auth_observed :
    (∀ (fuel : Nat) (decoded : Option Command) (expected : List Nat)
        (auth : Nat → Bool) (elapsedMs : Nat → Nat) (out : List Action) (act : Action),
      handle_uni_stream fuel decoded expected auth elapsedMs = some out →
      act ∈ out → act.isDataPlane = true →
      ∃ n cmd, auth n = true ∧ decoded = some cmd ∧
        out = List.replicate n Action.tick ++ dispatchUniAuthed cmd) ∧
    (∀ (fuel : Nat) (decoded : Option Command) (env : NetEnv)
        (auth : Nat → Bool) (elapsedMs : Nat → Nat) (o : BiOutcome) (act : Action),
      handle_bi_stream fuel decoded env auth elapsedMs = some o →
      act ∈ o.acts → act.isDataPlane = true →
      ∃ n cmd, auth n = true ∧ decoded = some cmd ∧
        o = BiOutcome.prependTicks n (dispatchBiAuthed env cmd)) := by
  constructor
  · intro fuel decoded expected auth elapsedMs out act h hmem hdp
    match decoded with
    | none =>
      simp [handle_uni_stream] at h
      rw [← h] at hmem
      simp at hmem
      rw [hmem] at hdp
      simp [Action.isDataPlane] at hdp
    | some (.authenticate digest) =>
      by_cases hd : digest = expected <;> simp [handle_uni_stream, hd] at h <;>
        rw [← h] at hmem <;> simp at hmem <;> rw [hmem] at hdp <;>
        simp [Action.isDataPlane] at hdp
    | some (.connect a) =>
      rcases uniGateLoop_mem_auth _ auth elapsedMs fuel 0 out act h hmem hdp with ⟨k, hk, hout⟩
      exact ⟨k, .connect a, by simpa using hk, rfl, hout⟩
    | some (.bind a) =>
      rcases uniGateLoop_mem_auth _ auth elapsedMs fuel 0 out act h hmem hdp with ⟨k, hk, hout⟩
      exact ⟨k, .bind a, by simpa using hk, rfl, hout⟩
    | some (.packet aid len a) =>
      rcases uniGateLoop_mem_auth _ auth elapsedMs fuel 0 out act h hmem hdp with ⟨k, hk, hout⟩
      exact ⟨k, .packet aid len a, by simpa using hk, rfl, hout⟩
    | some (.dissociate aid) =>
      rcases uniGateLoop_mem_auth _ auth elapsedMs fuel 0 out act h hmem hdp with ⟨k, hk, hout⟩
      exact ⟨k, .dissociate aid, by simpa using hk, rfl, hout⟩
  · intro fuel decoded env auth elapsedMs o act h hmem hdp
    match decoded with
    | none =>
      simp [handle_bi_stream] at h
      rw [← h] at hmem
      simp [BiOutcome.acts] at hmem
      rw [hmem] at hdp
      simp [Action.isDataPlane] at hdp
    | some cmd =>
      rcases biGateLoop_mem_auth env cmd auth elapsedMs fuel 0 o act h hmem hdp with ⟨k, hk, ho⟩
      exact ⟨k, cmd, by simpa using hk, rfl, ho⟩

theorem data_plane_requires_auth_observed_witness :
    ∃ n cmd, (fun (_ : Nat) => true) n = true ∧
      (some (Command.dissociate 3) : Option Command) = some cmd ∧
      ([Action.dissociateAssoc 3] : List Action) =
        List.replicate n Action.tick ++ dispatchUniAuthed cmd :=
  data_plane_requires_auth_observed.1 1 (some (.dissociate 3)) [] (fun _ => true)
    (fun _ => 0) [Action.dissociateAssoc 3] (Action.dissociateAssoc 3)
    (by simp [handle_uni_stream, uniGateLoop, dispatchUniAuthed])
    (by simp) rfl

theorem store_not_mem_dispatchUniAuthed (cmd : Command) (b : Bool) :
    Action.storeAuthFlag b ∉ dispatchUniAuthed cmd := by
  cases cmd <;> simp [dispatchUniAuthed]

theorem store_not_mem_handle_connect (env : NetEnv) (addr : Address) (b : Bool) :
    Action.storeAuthFlag b ∉ (handle_connect env addr).1 := by
  rcases h : connect_remote env addr with ⟨tried, res⟩
  cases res <;> simp [handle_connect, h]

theorem store_not_mem_dispatchBiAuthed (env : NetEnv) (cmd : Command) (b : Bool) :
    Action.storeAuthFlag b ∉ (dispatchBiAuthed env cmd).acts := by
  cases cmd with
  | connect addr =>
    have h1 := store_not_mem_handle_connect env addr b
    rcases h : handle_connect env addr with ⟨acts, ok⟩
    rw [h] at h1
    cases ok <;> simp [dispatchBiAuthed, h, BiOutcome.acts] <;> simpa using h1
  | _ => simp [dispatchBiAuthed, BiOutcome.acts]

theorem store_not_mem_uniGateLoop (cmd : Command) (auth : Nat → Bool)
    (elapsedMs : Nat → Nat) (b : Bool) :
    ∀ (fuel i : Nat) (out : List Action),
      uniGateLoop cmd auth elapsedMs fuel i = some out →
      Action.storeAuthFlag b ∉ out := by
  intro fuel
  induction fuel with
  | zero => intro i out h; simp [uniGateLoop] at h
  | succ fuel ih =>
    intro i out h
    by_cases h1 : auth i
    · simp [uniGateLoop, h1] at h
      rw [← h]
      exact store_not_mem_dispatchUniAuthed cmd b
    · by_cases h2 : 3000 < elapsedMs i
      · simp [uniGateLoop, h1, h2] at h
        rw [← h]
        simp
      · simp only [uniGateLoop, h1, if_false, h2, Bool.false_eq_true] at h
        rcases Option.map_eq_some'.mp h with ⟨rest, hrest, hout⟩
        subst hout
        simpa using ih (i + 1) rest hrest

theorem store_not_mem_biGateLoop (env : NetEnv) (cmd : Command) (auth : Nat → Bool)
    (elapsedMs : Nat → Nat) (b : Bool) :
    ∀ (fuel i : Nat) (o : BiOutcome),
      biGateLoop env cmd auth elapsedMs fuel i = some o →
      Action.storeAuthFlag b ∉ o.acts := by
  intro fuel
  induction fuel with
  | zero => intro i o h; simp [biGateLoop] at h
  | succ fuel ih =>
    intro i o h
    by_cases h1 : auth i
    · simp [biGateLoop, h1] at h
      rw [← h]
      exact store_not_mem_dispatchBiAuthed env cmd b
    · by_cases h2 : 3000 < elapsedMs i
      · simp [biGateLoop, h1, h2] at h
        rw [← h]
        simp [BiOutcome.acts]
      · simp only [biGateLoop, h1, if_false, h2, Bool.false_eq_true] at h
        rcases Option.map_eq_some'.mp h with ⟨o', ho', hout⟩
        subst hout
        rw [BiOutcome.acts_prependTick]
        simpa using ih (i + 1) o' ho'

/-- **C3.** The authentication flag is monotonic: across the entire
dispatcher the only store to the flag is the store of `true` in the
matching-digest Authenticate branch of the receive-only handler — any
`storeAuthFlag b` a handler emits has `b = true` and comes from a decoded
`Authenticate` whose digest equals the expected digest; the duplex handler
never stores to the flag at all.  (The reverse packet pusher emits stream
writes only — `handle_received_udp_packet` produces no `Action` by
construction.)  In particular no operation ever stores `false`, so the
flag never reverts. -/
theorem auth_flag_single_store_true :
    (∀ (fuel : Nat) (decoded : Option Command) (expected : List Nat)
        (auth : Nat → Bool) (elapsedMs : Nat → Nat) (out : List Action) (b : Bool),
      handle_uni_stream fuel decoded expected auth elapsedMs = some out →
      Action.storeAuthFlag b ∈ out →
      b = true ∧ decoded = some (.authenticate expected)) ∧
    (∀ (fuel : Nat) (decoded : Option Command) (env : NetEnv)
        (auth : Nat → Bool) (elapsedMs : Nat → Nat) (o : BiOutcome) (b : Bool),
      handle_bi_stream fuel decoded env auth elapsedMs = some o →
      Action.storeAuthFlag b ∉ o.acts) := by
  constructor
  · intro fuel decoded expected auth elapsedMs out b h hmem
    match decoded with
    | none =>
      simp [handle_uni_stream] at h
      rw [← h] at hmem
      simp at hmem
    | some (.authenticate digest) =>
      by_cases hd : digest = expected
      · simp [handle_uni_stream, hd] at h
        rw [← h] at hmem
        simp at hmem
        exact ⟨hmem, by rw [hd]⟩
      · simp [handle_uni_stream, hd] at h
        rw [← h] at hmem
        simp at hmem
    | some (.connect a) =>
      exact absurd hmem (store_not_mem_uniGateLoop _ auth elapsedMs b fuel 0 out h)
    | some (.bind a) =>
      exact absurd hmem (store_not_mem_uniGateLoop _ auth elapsedMs b fuel 0 out h)
    | some (.packet aid len a) =>
      exact absurd hmem (store_not_mem_uniGateLoop _ auth elapsedMs b fuel 0 out h)
    | some (.dissociate aid) =>
      exact absurd hmem (store_not_mem_uniGateLoop _ auth elapsedMs b fuel 0 out h)
  · intro fuel decoded env auth elapsedMs o b h
    match decoded with
    | none =>
      simp [handle_bi_stream] at h
      rw [← h]
      simp [BiOutcome.acts]
    | some cmd =>
      exact store_not_mem_biGateLoop env cmd auth elapsedMs b fuel 0 o h

theorem auth_flag_single_store_true_witness :
    true = true ∧
      (some (Command.authenticate [9]) : Option Command) = some (.authenticate [9]) :=
  auth_flag_single_store_true.1 1 (some (.authenticate [9])) [9] (fun _ => false)
    (fun _ => 0) [Action.storeAuthFlag true] true
    (by simp [handle_uni_stream]) (by simp)

theorem uniGateLoop_run_authed (cmd : Command) (auth : Nat → Bool) (elapsedMs : Nat → Nat) :
    ∀ (n fuel i : Nat), n < fuel →
      (∀ m, m < n → auth (i + m) = false ∧ elapsedMs (i + m) ≤ 3000) →
      auth (i + n) = true →
      uniGateLoop cmd auth elapsedMs fuel i =
        some (List.replicate n Action.tick ++ dispatchUniAuthed cmd) := by
  intro n
  induction n with
  | zero =>
    intro fuel i hfuel _ hn
    match fuel, hfuel with
    | fuel + 1, _ => simp [uniGateLoop, show auth i = true by simpa using hn]
  | succ n ih =>
    intro fuel i hfuel hbefore hn
    match fuel, hfuel with
    | fuel + 1, hfuel =>
      have h0 := hbefore 0 (Nat.succ_pos n)
      simp only [Nat.add_zero] at h0
      have hrec := ih fuel (i + 1) (by omega)
        (fun m hm => by
          have := hbefore (m + 1) (by omega)
          rwa [show i + (m + 1) = i + 1 + m by omega] at this)
        (by rwa [show i + 1 + n = i + (n + 1) by omega])
      simp [uniGateLoop, h0.1, show ¬3000 < elapsedMs i by omega, hrec, List.replicate_succ]

theorem uniGateLoop_run_timeout (cmd : Command) (auth : Nat → Bool) (elapsedMs : Nat → Nat) :
    ∀ (n fuel i : Nat), n < fuel →
      (∀ m, m < n → auth (i + m) = false ∧ elapsedMs (i + m) ≤ 3000) →
      auth (i + n) = false → 3000 < elapsedMs (i + n) →
      uniGateLoop cmd auth elapsedMs fuel i =
        some (List.replicate n Action.tick ++ [Action.closeConn "Authentication timeout"]) := by
  intro n
  induction n with
  | zero =>
    intro fuel i hfuel _ hn ht
    match fuel, hfuel with
    | fuel + 1, _ =>
      simp only [Nat.add_zero] at hn ht
      simp [uniGateLoop, hn, ht]
  | succ n ih =>
    intro fuel i hfuel hbefore hn ht
    match fuel, hfuel with
    | fuel + 1, hfuel =>
      have h0 := hbefore 0 (Nat.succ_pos n)
      simp only [Nat.add_zero] at h0
      have hrec := ih fuel (i + 1) (by omega)
        (fun m hm => by
          have := hbefore (m + 1) (by omega)
          rwa [show i + (m + 1) = i + 1 + m by omega] at this)
        (by rwa [show i + 1 + n = i + (n + 1) by omega])
        (by rwa [show i + 1 + n = i + (n + 1) by omega])
      simp [uniGateLoop, h0.1, show ¬3000 < elapsedMs i by omega, hrec, List.replicate_succ]

theorem biGateLoop_run_authed (env : NetEnv) (cmd : Command) (auth : Nat → Bool)
    (elapsedMs : Nat → Nat) :
    ∀ (n fuel i : Nat), n < fuel →
      (∀ m, m < n → auth (i + m) = false ∧ elapsedMs (i + m) ≤ 3000) →
      auth (i + n) = true →
      biGateLoop env cmd auth elapsedMs fuel i =
        some (BiOutcome.prependTicks n (dispatchBiAuthed env cmd)) := by
  intro n
  induction n with
  | zero =>
    intro fuel i hfuel _ hn
    match fuel, hfuel with
    | fuel + 1, _ =>
      simp [biGateLoop, show auth i = true by simpa using hn, BiOutcome.prependTicks]
  | succ n ih =>
    intro fuel i hfuel hbefore hn
    match fuel, hfuel with
    | fuel + 1, hfuel =>
      have h0 := hbefore 0 (Nat.succ_pos n)
      simp only [Nat.add_zero] at h0
      have hrec := ih fuel (i + 1) (by omega)
        (fun m hm => by
          have := hbefore (m + 1) (by omega)
          rwa [show i + (m + 1) = i + 1 + m by omega] at this)
        (by rwa [show i + 1 + n = i + (n + 1) by omega])
      simp [biGateLoop, h0.1, show ¬3000 < elapsedMs i by omega, hrec, BiOutcome.prependTicks]

theorem biGateLoop_run_timeout (env : NetEnv) (cmd : Command) (auth : Nat → Bool)
    (elapsedMs : Nat → Nat) :
    ∀ (n fuel i : Nat), n < fuel →
      (∀ m, m < n → auth (i + m) = false ∧ elapsedMs (i + m) ≤ 3000) →
      auth (i + n) = false → 3000 < elapsedMs (i + n) →
      biGateLoop env cmd auth elapsedMs fuel i =
        some (.done (List.replicate n Action.tick ++
          [Action.closeConn "Authentication timeout"])) := by
  intro n
  induction n with
  | zero =>
    intro fuel i hfuel _ hn ht
    match fuel, hfuel with
    | fuel + 1, _ =>
      simp only [Nat.add_zero] at hn ht
      simp [biGateLoop, hn, ht]
  | succ n ih =>
    intro fuel i hfuel hbefore hn ht
    match fuel, hfuel with
    | fuel + 1, hfuel =>
      have h0 := hbefore 0 (Nat.succ_pos n)
      simp only [Nat.add_zero] at h0
      have hrec := ih fuel (i + 1) (by omega)
        (fun m hm => by
          have := hbefore (m + 1) (by omega)
          rwa [show i + (m + 1) = i + 1 + m by omega] at this)
        (by rwa [show i + 1 + n = i + (n + 1) by omega])
        (by rwa [show i + 1 + n = i + (n + 1) by omega])
      simp [biGateLoop, h0.1, show ¬3000 < elapsedMs i by omega, hrec,
        BiOutcome.prependTick, List.replicate_succ]

/-- **C4.** For a stream carrying a non-Authenticate command, the gate
behaves as claimed: while the flag reads false and at most 3000 ms have
elapsed, each poll waits one tick and retests; at the first poll `n` where
the flag reads true, dispatch proceeds immediately (the output is the `n`
waiting ticks followed by the authenticated dispatch); if instead the flag
reads false at poll `n` and more than 3000 ms have elapsed since the
Connection's creation, the Connection is closed with "Authentication
timeout" and the handler returns without dispatching. -/
theorem auth_gate_bounded_wait (cmd : Command) (expected : List Nat) (env : NetEnv)
    (auth : Nat → Bool) (elapsedMs : Nat → Nat) (n fuel : Nat)
    (hcmd : ∀ d, cmd ≠ Command.authenticate d)
    (hfuel : n < fuel)
    (hbefore : ∀ m, m < n → auth m = false ∧ elapsedMs m ≤ 3000) :
    (auth n = true →
      handle_uni_stream fuel (some cmd) expected auth elapsedMs =
        some (List.replicate n Action.tick ++ dispatchUniAuthed cmd) ∧
      handle_bi_stream fuel (some cmd) env auth elapsedMs =
        some (BiOutcome.prependTicks n (dispatchBiAuthed env cmd))) ∧
    (auth n = false → 3000 < elapsedMs n →
      handle_uni_stream fuel (some cmd) expected auth elapsedMs =
        some (List.replicate n Action.tick ++ [Action.closeConn "Authentication timeout"]) ∧
      handle_bi_stream fuel (some cmd) env auth elapsedMs =
        some (.done (List.replicate n Action.tick ++
          [Action.closeConn "Authentication timeout"]))) := by
  have hb : ∀ m, m < n → auth (0 + m) = false ∧ elapsedMs (0 + m) ≤ 3000 := by
    intro m hm
    simpa using hbefore m hm
  constructor
  · intro hn
    rw [handle_uni_stream_nonauth fuel cmd expected auth elapsedMs hcmd,
      handle_bi_stream_some fuel cmd env auth elapsedMs]
    exact ⟨uniGateLoop_run_authed cmd auth elapsedMs n fuel 0 hfuel hb (by simpa using hn),
      biGateLoop_run_authed env cmd auth elapsedMs n fuel 0 hfuel hb (by simpa using hn)⟩
  · intro hn ht
    rw [handle_uni_stream_nonauth fuel cmd expected auth elapsedMs hcmd,
      handle_bi_stream_some fuel cmd env auth elapsedMs]
    exact ⟨uniGateLoop_run_timeout cmd auth elapsedMs n fuel 0 hfuel hb
        (by simpa using hn) (by simpa using ht),
      biGateLoop_run_timeout env cmd auth elapsedMs n fuel 0 hfuel hb
        (by simpa using hn) (by simpa using ht)⟩

theorem auth_gate_bounded_wait_witness :
    handle_uni_stream 2 (some (.dissociate 5)) []
        (fun m => decide (m = 1)) (fun _ => 0) =
      some (List.replicate 1 Action.tick ++ dispatchUniAuthed (.dissociate 5)) ∧
    handle_bi_stream 2 (some (.dissociate 5)) ⟨fun _ => none, fun _ => false⟩
        (fun m => decide (m = 1)) (fun _ => 0) =
      some (BiOutcome.prependTicks 1
        (dispatchBiAuthed ⟨fun _ => none, fun _ => false⟩ (.dissociate 5))) :=
  (auth_gate_bounded_wait (.dissociate 5) [] ⟨fun _ => none, fun _ => false⟩
    (fun m => decide (m = 1)) (fun _ => 0) 1 2
    (fun d h => Command.noConfusion h) (by omega)
    (fun m hm => by interval_cases m <;> simp)).1 (by simp)

theorem connectRemoteLoop_snd (connOk : Nat → Bool) :
    ∀ l : List Nat, (connectRemoteLoop connOk l).2 = l.find? connOk := by
  intro l
  induction l with
  | nil => rfl
  | cons sa rest ih =>
    by_cases h : connOk sa <;> simp [connectRemoteLoop, List.find?_cons, h, ih]

theorem connectRemoteLoop_fst (connOk : Nat → Bool) :
    ∀ l : List Nat,
      (connectRemoteLoop connOk l).1 =
        l.takeWhile (fun sa => !connOk sa) ++ (l.dropWhile (fun sa => !connOk sa)).take 1 := by
  intro l
  induction l with
  | nil => rfl
  | cons sa rest ih =>
    by_cases h : connOk sa <;>
      simp [connectRemoteLoop, List.takeWhile_cons, List.dropWhile_cons, h, ih]

theorem connectRemoteLoop_all_fail (connOk : Nat → Bool) :
    ∀ l : List Nat, l.find? connOk = none → connectRemoteLoop connOk l = (l, none) := by
  intro l
  induction l with
  | nil => intro _; rfl
  | cons sa rest ih =>
    intro h
    rw [List.find?_cons] at h
    by_cases hsa : connOk sa
    · simp [hsa] at h
    · simp only [hsa, if_neg, Bool.false_eq_true, ite_false] at h
      simp [connectRemoteLoop, hsa, ih h]

/-- **C7.** Connect resolves the target address to a candidate list and
attempts a TCP connection to each candidate in list order: the attempted
candidates are exactly the failing prefix plus (when one exists) the first
succeeding candidate, after which no further candidate is attempted, and
the connection used is the first success.  When every candidate fails, a
`Response` with `success = false` is written on the stream's send half,
the error is only logged, and the Connection is not closed (no `closeConn`
action occurs). -/
theorem connect_first_success_failure_isolated (env : NetEnv) (addr : Address)
    (addrs : List Nat) (hres : env.resolve addr = some addrs) :
    ((connect_remote env addr).1 =
      addrs.takeWhile (fun sa => !env.connOk sa) ++
        (addrs.dropWhile (fun sa => !env.connOk sa)).take 1) ∧
    ((connect_remote env addr).2 = addrs.find? env.connOk) ∧
    (addrs.find? env.connOk = none →
      handle_connect env addr =
        (addrs.map Action.tcpConnectAttempt ++ [Action.writeResponse false], false) ∧
      ∀ (fuel : Nat) (auth : Nat → Bool) (elapsedMs : Nat → Nat), auth 0 = true →
        handle_bi_stream (fuel + 1) (some (.connect addr)) env auth elapsedMs =
          some (.done (addrs.map Action.tcpConnectAttempt ++
            [Action.writeResponse false, Action.logError])) ∧
        ∀ r, Action.closeConn r ∉ addrs.map Action.tcpConnectAttempt ++
            [Action.writeResponse false, Action.logError]) := by
  have hcr : connect_remote env addr = connectRemoteLoop env.connOk addrs := by
    simp [connect_remote, hres]
  refine ⟨by rw [hcr]; exact connectRemoteLoop_fst env.connOk addrs,
    by rw [hcr]; exact connectRemoteLoop_snd env.connOk addrs, fun hnone => ?_⟩
  have hall : connect_remote env addr = (addrs, none) := by
    rw [hcr]; exact connectRemoteLoop_all_fail env.connOk addrs hnone
  have hhc : handle_connect env addr =
      (addrs.map Action.tcpConnectAttempt ++ [Action.writeResponse false], false) := by
    simp [handle_connect, hall]
  refine ⟨hhc, fun fuel auth elapsedMs hauth => ⟨?_, by simp⟩⟩
  rw [handle_bi_stream_some]
  simp [biGateLoop, hauth, dispatchBiAuthed, hhc]

theorem connect_first_success_failure_isolated_witness :
    handle_bi_stream 1 (some (.connect (Address.domainAddr "example" 80)))
        ⟨fun _ => some [10, 11], fun _ => false⟩ (fun _ => true) (fun _ => 0) =
      some (.done (([10, 11] : List Nat).map Action.tcpConnectAttempt ++
        [Action.writeResponse false, Action.logError])) :=
  (((connect_first_success_failure_isolated ⟨fun _ => some [10, 11], fun _ => false⟩
    (Address.domainAddr "example" 80) [10, 11] rfl).2.2 rfl).2 0
    (fun _ => true) (fun _ => 0) rfl).1

end Tuic
